import Mathlib

/-
Verification of the statecouchdb versioned key-value adapter
(core/ledger/kvledger/txmgmt/statedb/statecouchdb/statecouchdb.go).

Shallow embedding conventions:
- Go byte strings (namespaces, keys, document ids, stored version strings,
  raw values) are modelled as `Bytes := List Nat`, one Nat per byte.
- Opaque tokens that the code only stores and compares (revision tokens,
  update sequence cursors, error messages) are modelled as Lean `String`.
- Go maps are modelled as association lists with prepend-insert, so a later
  insert shadows an earlier binding, matching map overwrite semantics.
- A Go function that can return a runtime panic (nil dereference, index out
  of range) is modelled with an `Option` result or the `crash` constructor
  of `Outcome`; `none` / `.crash` stand for the abort.
- The external CouchDB client (couchdb package) is a collaborator: it is
  modelled as a record of response functions (`Store`).
-/

/-- One byte of a Go byte string, kept as a Nat (values 0..255 in practice). -/
abbrev Bytes : Type := List Nat

/-- Result of a Go call: a normal value, a returned error, or a runtime panic. -/
inductive Outcome (α : Type) where
  | ok : α → Outcome α
  | err : String → Outcome α
  | crash : Outcome α
deriving DecidableEq

/-- Height mirrors version.Height: a block number and a transaction number. -/
structure Height where
  blockNum : Nat
  txNum : Nat
deriving DecidableEq

/-- CompositeKey mirrors statedb.CompositeKey: a namespace and a key. -/
structure CompositeKey where
  ns : Bytes
  key : Bytes
deriving DecidableEq

/-- VersionedValue mirrors statedb.VersionedValue: Value is a Go byte slice
that may be nil (a tombstone), Version is a pointer that may be nil. -/
structure VersionedValue where
  value : Option Bytes
  version : Option Height
deriving DecidableEq

/-- compositeKeySep: the single reserved separator byte 0x00. -/
def compositeKeySep : Nat := 0

/-- lastKeyIndicator: the byte 0x01 used to close an open-ended range scan. -/
def lastKeyIndicator : Nat := 1

/-- binaryWrapper: the reserved attachment name for non-JSON values. -/
def binaryWrapper : String := "valueBytes"

/-- constructCompositeKey concatenates the namespace, the 0x00 separator
and the key (source lines 702-707). -/
def constructCompositeKey (ns : Bytes) (key : Bytes) : Bytes :=
  ns ++ [compositeKeySep] ++ key

/-- splitCompositeKey splits on the first occurrence of the separator
(bytes.SplitN with n = 2, source lines 709-712). When the separator does
not occur, SplitN returns a one-element slice and the access split[1]
is out of range: that abort is modelled as `none`. -/
def splitCompositeKey : Bytes → Option (Bytes × Bytes)
  | [] => none
  | b :: rest =>
    if b = compositeKeySep then some ([], rest)
    else
      match splitCompositeKey rest with
      | none => none
      | some (pre, post) => some (b :: pre, post)

/-- rangeScanEndKey: the exclusive end bound that GetStateRangeScanIterator
builds when the caller passes an empty end key: the composite key of the
empty key with its final byte replaced by lastKeyIndicator
(source lines 292-296). -/
def rangeScanEndKey (ns : Bytes) : Bytes :=
  let compositeEndKey := constructCompositeKey ns []
  compositeEndKey.dropLast ++ [lastKeyIndicator]

/-- C6: for every (namespace, key) pair in which the namespace contains no
0x00 separator byte, splitCompositeKey after constructCompositeKey returns
exactly the original pair, even when the key itself contains the separator. -/
theorem splitCompositeKey_constructCompositeKey (ns key : Bytes)
    (h : compositeKeySep ∉ ns) :
    splitCompositeKey (constructCompositeKey ns key) = some (ns, key) := by
  induction ns with
  | nil => simp [constructCompositeKey, splitCompositeKey]
  | cons a l ih =>
    simp only [List.mem_cons, not_or] at h
    have ha : ¬(a = compositeKeySep) := fun hc => h.1 hc.symm
    have ihl := ih h.2
    simp only [constructCompositeKey, List.cons_append] at ihl ⊢
    rw [splitCompositeKey, if_neg ha, ihl]

/-- C6 witness: the round trip at namespace "a" = [97] and a key that itself
contains the separator byte. -/
theorem splitCompositeKey_constructCompositeKey_witness :
    splitCompositeKey (constructCompositeKey [97] [120, 0, 121]) = some ([97], [120, 0, 121]) :=
  splitCompositeKey_constructCompositeKey [97] [120, 0, 121] (by decide)

section RangeBoundLemmas

/-- Byte-wise lexicographic strict order on byte strings. -/
abbrev bytesLt : Bytes → Bytes → Prop := List.Lex (· < ·)

/-- Lexicographic comparison is invariant under a common prefix. -/
theorem lex_append_left (l a b : Bytes) (h : bytesLt a b) :
    bytesLt (l ++ a) (l ++ b) := by
  induction l with
  | nil => simpa using h
  | cons x xs ih => exact List.Lex.cons ih

/-- Any separator-terminated key in a namespace sorts strictly below the
namespace prefix followed by lastKeyIndicator. -/
theorem compositeKey_lt_endKey (ns key : Bytes) :
    bytesLt (constructCompositeKey ns key) (ns ++ [lastKeyIndicator]) := by
  unfold constructCompositeKey
  rw [List.append_assoc]
  exact lex_append_left ns _ _ (List.Lex.rel (by decide))

/-- The end bound of a namespace sorts strictly below every composite key of
every lexicographically later separator-free namespace. -/
theorem endKey_lt_next_namespace (ns ns' key' : Bytes) (h' : compositeKeySep ∉ ns')
    (hlt : bytesLt ns ns') :
    bytesLt (ns ++ [lastKeyIndicator]) (constructCompositeKey ns' key') := by
  unfold constructCompositeKey
  induction hlt with
  | nil =>
    rename_i b l
    simp only [List.nil_append]
    simp only [List.mem_cons, not_or] at h'
    have hb : b ≠ compositeKeySep := fun hc => h'.1 hc.symm
    rcases Nat.lt_or_ge lastKeyIndicator b with hlt1 | hge
    · exact List.Lex.rel hlt1
    · have hb1 : b = lastKeyIndicator := by
        unfold lastKeyIndicator at hge ⊢
        unfold compositeKeySep at hb
        omega
      subst hb1
      apply List.Lex.cons
      cases l with
      | nil => exact List.Lex.nil
      | cons c cs => exact List.Lex.nil
  | rel hr => exact List.Lex.rel hr
  | cons _ ih =>
    rename_i a l1 l2 _
    simp only [List.mem_cons, not_or] at h'
    exact List.Lex.cons (ih h'.2)

end RangeBoundLemmas

/-- C7: for every separator-free namespace, the encoded end bound built for
an empty end key sorts, in byte-wise lexicographic order, strictly after
the composite key of every key of that namespace, and strictly before the
composite key of every key of every lexicographically later separator-free
namespace. -/
theorem rangeScanEndKey_bounds (ns : Bytes) (h : compositeKeySep ∉ ns) :
    (∀ key : Bytes, bytesLt (constructCompositeKey ns key) (rangeScanEndKey ns)) ∧
    (∀ ns' key' : Bytes, compositeKeySep ∉ ns' → bytesLt ns ns' →
      bytesLt (rangeScanEndKey ns) (constructCompositeKey ns' key')) := by
  have hend : rangeScanEndKey ns = ns ++ [lastKeyIndicator] := by
    unfold rangeScanEndKey constructCompositeKey
    simp
  constructor
  · intro key
    rw [hend]
    exact compositeKey_lt_endKey ns key
  · intro ns' key' h' hlt
    rw [hend]
    exact endKey_lt_next_namespace ns ns' key' h' hlt

/-- C7 witness: concrete bounds at namespace "a" = [97], key "x" = [120], and
the later namespace "b" = [98]. -/
theorem rangeScanEndKey_bounds_witness :
    bytesLt (constructCompositeKey [97] [120]) (rangeScanEndKey [97]) ∧
    bytesLt (rangeScanEndKey [97]) (constructCompositeKey [98] [121]) :=
  ⟨(rangeScanEndKey_bounds [97] (by decide)).1 [120],
   (rangeScanEndKey_bounds [97] (by decide)).2 [98] [121] (by decide) (List.Lex.rel (by decide))⟩

/-- colonByte: the ASCII code of the colon separating blockNum and txNum in
an encoded version string. -/
def colonByte : Nat := 58

/-- splitOnByte models strings.Split for a one-byte separator: the list of
separator-free chunks, always nonempty. -/
def splitOnByte (sep : Nat) : Bytes → List Bytes
  | [] => [[]]
  | b :: rest =>
    if b = sep then [] :: splitOnByte sep rest
    else
      match splitOnByte sep rest with
      | [] => [[b]]
      | s :: ss => (b :: s) :: ss

/-- isDigitByte: the byte is an ASCII decimal digit. -/
def isDigitByte (b : Nat) : Bool := 48 ≤ b && b ≤ 57

/-- digitsToNat: the value of a string of ASCII decimal digits. -/
def digitsToNat (s : Bytes) : Nat := s.foldl (fun acc d => acc * 10 + (d - 48)) 0

/-- parseUint64 models strconv.ParseUint(s, 10, 64) with the error result
discarded, as the source does: a syntax error leaves the zero value and a
range error leaves the maximum uint64 value, both of which the source keeps. -/
def parseUint64 (s : Bytes) : Nat :=
  if s = [] then 0
  else if s.all isDigitByte then min (digitsToNat s) (2 ^ 64 - 1)
  else 0

/-- createVersionFromString (source lines 550-562) splits the encoded version
on the colon and parses both parts, ignoring parse errors. When the string
contains no colon the split has a single element and the access
versionArray[1] is out of range; that abort is modelled as none. -/
def createVersionFromString (encodedVersion : Bytes) : Option Height :=
  match splitOnByte colonByte encodedVersion with
  | blockPart :: txPart :: _ => some ⟨parseUint64 blockPart, parseUint64 txPart⟩
  | _ => none

/-- Attachment mirrors couchdb.Attachment. -/
structure Attachment where
  name : String
  contentType : String
  attachmentBytes : Bytes
deriving DecidableEq

/-- StoredDocJSON models the generic JSON map a stored document decodes to,
restricted to the two fields the adapter reads: the data wrapper field and
the version field. A field absent from the document, or a body that fails to
decode, is none. -/
structure StoredDocJSON where
  data : Option Bytes
  version : Option Bytes
deriving DecidableEq

/-- sprintfNilString: the bytes fmt.Sprintf renders for the version field of
a document with no version: the s verb applied to a nil interface value. -/
def sprintfNilString : Bytes := [37, 33, 115, 40, 60, 110, 105, 108, 62, 41]

/-- nullJSON: the bytes json.Marshal produces for a nil value. -/
def nullJSON : Bytes := [110, 117, 108, 108]

/-- removeDataWrapper (source lines 213-260). When the data wrapper field is
absent and attachments are present, the loop keeps the bytes of the last
attachment named binaryWrapper, starting from the empty slice; otherwise the
data wrapper field is re-marshalled (marshalling an absent field gives the
null literal). The version is recovered by the same split-and-parse logic as
createVersionFromString, applied to the Sprintf rendering of the version
field; a rendering with no colon aborts with an index out of range (none). -/
def removeDataWrapper (jsonResult : StoredDocJSON) (attachments : Option (List Attachment)) :
    Option (Bytes × Height) :=
  let returnValue : Bytes :=
    if jsonResult.data = none ∧ attachments ≠ none then
      (attachments.getD []).foldl
        (fun acc attachment =>
          if attachment.name = binaryWrapper then attachment.attachmentBytes else acc) []
    else
      jsonResult.data.getD nullJSON
  match createVersionFromString (jsonResult.version.getD sprintfNilString) with
  | none => none
  | some returnVersion => some (returnValue, returnVersion)

section VersionParsingLemmas

/-- splitOnByte never returns the empty list. -/
theorem splitOnByte_ne_nil (sep : Nat) (s : Bytes) : splitOnByte sep s ≠ [] := by
  induction s with
  | nil => simp [splitOnByte]
  | cons b rest ih =>
    by_cases hb : b = sep
    · simp [splitOnByte, hb]
    · rw [splitOnByte, if_neg hb]
      cases hs : splitOnByte sep rest with
      | nil => exact absurd hs ih
      | cons x xs => simp

/-- Splitting a separator-free string gives that string back as the only chunk. -/
theorem splitOnByte_no_sep (sep : Nat) (s : Bytes) (h : sep ∉ s) :
    splitOnByte sep s = [s] := by
  induction s with
  | nil => rfl
  | cons b rest ih =>
    simp only [List.mem_cons, not_or] at h
    have hb : ¬(b = sep) := fun hc => h.1 hc.symm
    rw [splitOnByte, if_neg hb, ih h.2]

/-- Splitting at the first separator detaches the separator-free prefix. -/
theorem splitOnByte_append (sep : Nat) (a b : Bytes) (h : sep ∉ a) :
    splitOnByte sep (a ++ sep :: b) = a :: splitOnByte sep b := by
  induction a with
  | nil => simp [splitOnByte]
  | cons x rest ih =>
    simp only [List.mem_cons, not_or] at h
    have hx : ¬(x = sep) := fun hc => h.1 hc.symm
    rw [List.cons_append, splitOnByte, if_neg hx, ih h.2]

/-- A byte string that is not all digits parses to zero. -/
theorem parseUint64_eq_zero (s : Bytes) (h : ¬s.all isDigitByte = true) :
    parseUint64 s = 0 := by
  have hs : ¬(s = []) := by rintro rfl; simp at h
  rw [parseUint64, if_neg hs, if_neg h]

end VersionParsingLemmas

/-- C9 counterexample: the stored version string "deadbeef", which contains no
colon, does not decode to the zero height: the split has one element and the
access to the second element aborts (modelled as none). The same abort occurs
in removeDataWrapper for a document whose version field is absent. -/
theorem createVersionFromString_no_colon_counterexample :
    createVersionFromString [100, 101, 97, 100, 98, 101, 101, 102] = none ∧
    ¬(createVersionFromString [100, 101, 97, 100, 98, 101, 101, 102] = some ⟨0, 0⟩) ∧
    removeDataWrapper ⟨some [49], none⟩ none = none := by
  refine ⟨by decide, by decide, ?_⟩
  decide

/-- C9 amended: decoding tolerates a malformed version string only when it
contains a colon: then both parts parse with errors ignored, and a part that
is not a decimal number contributes zero, so a malformed-but-colonned version
yields the zero height. A version string with no colon at all, including the
placeholder rendered for an absent version field, aborts decoding with an
index out of range instead of yielding the zero height. -/
theorem createVersionFromString_amended :
    (∀ a b : Bytes, colonByte ∉ a → colonByte ∉ b →
      createVersionFromString (a ++ colonByte :: b) =
        some ⟨parseUint64 a, parseUint64 b⟩) ∧
    (∀ a b : Bytes, colonByte ∉ a → colonByte ∉ b →
      ¬a.all isDigitByte = true → ¬b.all isDigitByte = true →
      createVersionFromString (a ++ colonByte :: b) = some ⟨0, 0⟩) ∧
    (∀ s : Bytes, colonByte ∉ s → createVersionFromString s = none) ∧
    (∀ (jsonResult : StoredDocJSON) (attachments : Option (List Attachment)),
      jsonResult.version = none → removeDataWrapper jsonResult attachments = none) := by
  have hsplit : ∀ a b : Bytes, colonByte ∉ a → colonByte ∉ b →
      createVersionFromString (a ++ colonByte :: b) =
        some ⟨parseUint64 a, parseUint64 b⟩ := by
    intro a b ha hb
    rw [createVersionFromString, splitOnByte_append colonByte a b ha,
      splitOnByte_no_sep colonByte b hb]
  have hnone : ∀ s : Bytes, colonByte ∉ s → createVersionFromString s = none := by
    intro s hs
    rw [createVersionFromString, splitOnByte_no_sep colonByte s hs]
  refine ⟨hsplit, ?_, hnone, ?_⟩
  · intro a b ha hb hda hdb
    rw [hsplit a b ha hb, parseUint64_eq_zero a hda, parseUint64_eq_zero b hdb]
  · intro jsonResult attachments hv
    rw [removeDataWrapper, hv]
    have : createVersionFromString ((none : Option Bytes).getD sprintfNilString) = none := by
      apply hnone
      decide
    rw [this]

/-- C9 amended witness: the colonned but malformed version string "a:b"
decodes to the zero height. -/
theorem createVersionFromString_amended_witness :
    createVersionFromString ([97] ++ colonByte :: [98]) = some ⟨0, 0⟩ :=
  createVersionFromString_amended.2.1 [97] [98] (by decide) (by decide) (by decide) (by decide)

/-- CommittedVersions (source lines 56-60): the transaction-scoped cache.
Go map values that are nil pointers or nil slices are Option-valued entries;
the maps are association lists in which a prepended binding shadows an older
one, matching map overwrite. -/
structure CommittedVersions where
  committedVersions : List (CompositeKey × Option Height)
  revisionNumbers : List (CompositeKey × String)
  committedValues : List (CompositeKey × Option Bytes)
deriving DecidableEq

/-- mlookup: Go map access, first binding wins; none is the not-found flag. -/
def mlookup {α : Type} : List (CompositeKey × α) → CompositeKey → Option α
  | [], _ => none
  | (k, v) :: rest, compositeKey =>
    if k = compositeKey then some v else mlookup rest compositeKey

/-- newCommittedVersions: the fresh cache newVersionedDB builds (lines 111-115). -/
def newCommittedVersions : CommittedVersions := ⟨[], [], []⟩

/-- ClearCachedVersions (source lines 565-573) replaces all three maps with
fresh empty ones; the result of clearing is the empty cache value. -/
def ClearCachedVersions : CommittedVersions := newCommittedVersions

/-- CouchDoc as returned by a point read: the decoded JSON body and the
attachments (none models a nil attachment slice). -/
structure CouchDoc where
  jsonValue : StoredDocJSON
  attachments : Option (List Attachment)
deriving DecidableEq

/-- One entry of a BatchRetrieve response: document id, revision token,
version string, and (when bodies were requested) the raw body bytes. -/
structure RetrievedDoc where
  id : Bytes
  rev : String
  version : Bytes
  docBody : Bytes
deriving DecidableEq

/-- One entry of a BatchUpdateDocuments response. -/
structure UpdateResponse where
  id : Bytes
  ok : Bool
  error : String
  reason : String
deriving DecidableEq

/-- The JSON fields addCouchDBFieldsToValue sets on an outgoing document;
a map key the source does not set is none, and the deleted flag is true
exactly when the source sets the deletion key. -/
structure JSONFields where
  id : Bytes
  rev : Option String
  version : Bytes
  deleted : Bool
  chaincodeid : Option Bytes
  data : Option Bytes
deriving DecidableEq

/-- An outgoing document: the JSON value and the optional attachment list. -/
structure UpdateDoc where
  jsonValue : JSONFields
  attachments : Option (List Attachment)
deriving DecidableEq

/-- The response to EnsureFullCommit. -/
structure DBResponse where
  ok : Bool
deriving DecidableEq

/-- The response to GetDatabaseInfo. -/
structure DBInfo where
  updateSeq : String
deriving DecidableEq

/-- couchSavepointData (source lines 629-633). -/
structure CouchSavepointData where
  blockNum : Nat
  txNum : Nat
  updateSeq : String
deriving DecidableEq

/-- The CouchDB client collaborator, modelled by its responses. BatchRetrieve
errors are discarded at both call sites, and a failed call yields a nil
slice that the response loops treat as empty, so it returns a plain list. -/
structure Store where
  readDoc : Bytes → Except String (Option CouchDoc)
  batchRetrieve : List Bytes → Bool → List RetrievedDoc
  batchUpdateDocuments : List UpdateDoc → Except String (List UpdateResponse)
  ensureFullCommit : Except String DBResponse
  getDatabaseInfo : Except String DBInfo
  saveSavepointDoc : String → String → CouchSavepointData → Except String String

/-- The store-read half of GetState (source lines 154-167): a direct point
read decoded through removeDataWrapper; an absent document is an absent
result, not an error; a decode abort is a crash. -/
def getStateFromDB (store : Store) (ns key : Bytes) : Outcome (Option VersionedValue) :=
  match store.readDoc (constructCompositeKey ns key) with
  | .error e => .err e
  | .ok none => .ok none
  | .ok (some couchDoc) =>
    match removeDataWrapper couchDoc.jsonValue couchDoc.attachments with
    | none => .crash
    | some (returnValue, returnVersion) =>
      .ok (some ⟨some returnValue, some returnVersion⟩)

/-- GetState (source lines 140-168): a key found in the value cache returns
the cached value and cached version immediately (either may be nil); a value
hit without a version entry falls through to the store read, as does a miss. -/
def GetState (store : Store) (cache : CommittedVersions) (ns key : Bytes) :
    Outcome (Option VersionedValue) :=
  let compositeKeyStruct : CompositeKey := ⟨ns, key⟩
  match mlookup cache.committedValues compositeKeyStruct with
  | some returnValue =>
    match mlookup cache.committedVersions compositeKeyStruct with
    | some returnVersion => .ok (some ⟨returnValue, returnVersion⟩)
    | none => getStateFromDB store ns key
  | none => getStateFromDB store ns key

/-- GetVersion (source lines 170-211). On a cache hit the cached version
pointer is returned. On a cache miss the source tests the read error with
an inverted condition: a successful read returns an absent version with no
error at once, and a failed read falls through to unmarshal the fields of a
document the client did not return, a nil dereference modelled as crash. -/
def GetVersion (store : Store) (cache : CommittedVersions) (ns key : Bytes) :
    Outcome (Option Height) :=
  let compositeKey : CompositeKey := ⟨ns, key⟩
  match mlookup cache.committedVersions compositeKey with
  | some returnVersion => .ok returnVersion
  | none =>
    match store.readDoc (constructCompositeKey ns key) with
    | .ok _ => .ok none
    | .error _ => .crash

/-- The first phase of both bulk loads (source lines 475-488 and 518-531):
every requested key receives a nil version entry and an empty revision
entry before the bulk read is issued. -/
def initLoadEntries (cache : CommittedVersions) (keys : List CompositeKey) :
    CommittedVersions :=
  keys.foldl
    (fun c key =>
      { c with
        committedVersions := (key, none) :: c.committedVersions,
        revisionNumbers := (key, "") :: c.revisionNumbers })
    cache

/-- The response loop of LoadCommittedValues (source lines 492-507): a doc
with a nonempty version has its id split, its version parsed, and its
revision cached. The source then declares a nil byte slice, passes it as
the argument of UnmarshalJSON (which writes into its receiver, not into the
slice), and stores the still-nil slice as the cached value, so the body
bytes of the response never reach the value map. -/
def loadValuesDocs (cache : CommittedVersions) : List RetrievedDoc → Option CommittedVersions
  | [] => some cache
  | doc :: rest =>
    if doc.version = [] then loadValuesDocs cache rest
    else
      match splitCompositeKey doc.id with
      | none => none
      | some (ns, key) =>
        match createVersionFromString doc.version with
        | none => none
        | some ver =>
          let compositeKey : CompositeKey := ⟨ns, key⟩
          let val : Option Bytes := none
          loadValuesDocs
            { cache with
              committedVersions := (compositeKey, some ver) :: cache.committedVersions,
              revisionNumbers := (compositeKey, doc.rev) :: cache.revisionNumbers,
              committedValues := (compositeKey, val) :: cache.committedValues }
            rest

/-- LoadCommittedValues (source lines 467-508): seeds nil entries for every
requested key, issues one bulk read with bodies, and folds the response
into the cache; a response-processing abort propagates as none. -/
def LoadCommittedValues (store : Store) (cache : CommittedVersions)
    (keys : List CompositeKey) : Option CommittedVersions :=
  let cacheInit := initLoadEntries cache keys
  let keymap := keys.map (fun key => constructCompositeKey key.ns key.key)
  loadValuesDocs cacheInit (store.batchRetrieve keymap true)

/-- The response loop of LoadCommittedVersions (source lines 535-546). -/
def loadVersionsDocs (cache : CommittedVersions) : List RetrievedDoc → Option CommittedVersions
  | [] => some cache
  | doc :: rest =>
    if doc.version = [] then loadVersionsDocs cache rest
    else
      match splitCompositeKey doc.id with
      | none => none
      | some (ns, key) =>
        match createVersionFromString doc.version with
        | none => none
        | some ver =>
          let compositeKey : CompositeKey := ⟨ns, key⟩
          loadVersionsDocs
            { cache with
              committedVersions := (compositeKey, some ver) :: cache.committedVersions,
              revisionNumbers := (compositeKey, doc.rev) :: cache.revisionNumbers }
            rest

/-- LoadCommittedVersions (source lines 511-548): as LoadCommittedValues but
with bodies excluded and no value-map writes. -/
def LoadCommittedVersions (store : Store) (cache : CommittedVersions)
    (keys : List CompositeKey) : Option CommittedVersions :=
  let cacheInit := initLoadEntries cache keys
  let keymap := keys.map (fun key => constructCompositeKey key.ns key.key)
  loadVersionsDocs cacheInit (store.batchRetrieve keymap false)

/-- A store holding one document at key (a, x) with data bytes [49] and
version 5:3, and returning it on every point read. -/
def readBackStore : Store where
  readDoc := fun _ => .ok (some ⟨⟨some [49], some [53, 58, 51]⟩, none⟩)
  batchRetrieve := fun _ _ => []
  batchUpdateDocuments := fun _ => .error "unused"
  ensureFullCommit := .error "unused"
  getDatabaseInfo := .error "unused"
  saveSavepointDoc := fun _ _ _ => .error "unused"

/-- A store whose every point read fails with a transport error. -/
def failingReadStore : Store where
  readDoc := fun _ => .error "connection refused"
  batchRetrieve := fun _ _ => []
  batchUpdateDocuments := fun _ => .error "unused"
  ensureFullCommit := .error "unused"
  getDatabaseInfo := .error "unused"
  saveSavepointDoc := fun _ _ _ => .error "unused"

/-- C2: at a cache miss GetVersion inverts the found and not-found handling.
On a store that successfully returns an existing document with version 5:3,
GetVersion answers an absent version with no error, although GetState on the
same store and cache returns the document with height (5,3); and on a store
whose read fails, GetVersion dereferences the absent document (crash)
instead of propagating the error. -/
theorem GetVersion_inverted_handling :
    GetVersion readBackStore newCommittedVersions [97] [120] = .ok none ∧
    GetState readBackStore newCommittedVersions [97] [120] =
      .ok (some ⟨some [49], some ⟨5, 3⟩⟩) ∧
    GetVersion failingReadStore newCommittedVersions [97] [120] = .crash := by
  decide

/-- A store whose bulk read reports one document, id (a, x), revision token
1-abc, version 1:1, and a nonempty body. -/
def bulkReadStore : Store where
  readDoc := fun _ => .error "unused"
  batchRetrieve := fun _ _ =>
    [⟨[97, 0, 120], "1-abc", [49, 58, 49], [49, 50, 51]⟩]
  batchUpdateDocuments := fun _ => .error "unused"
  ensureFullCommit := .error "unused"
  getDatabaseInfo := .error "unused"
  saveSavepointDoc := fun _ _ _ => .error "unused"

/-- C3: after LoadCommittedValues processes a key the store reported as
present (its version and revision are cached), the value map holds a nil
byte slice rather than the decoded body bytes [49, 50, 51] the store
returned, and a subsequent cache-hit GetState for that key returns an
absent value together with the cached version. -/
theorem LoadCommittedValues_stores_nil_value :
    (LoadCommittedValues bulkReadStore newCommittedVersions [⟨[97], [120]⟩]).map
        (fun cache => mlookup cache.committedValues ⟨[97], [120]⟩) =
      some (some none) ∧
    (LoadCommittedValues bulkReadStore newCommittedVersions [⟨[97], [120]⟩]).map
        (fun cache => GetState bulkReadStore cache [97] [120]) =
      some (.ok (some ⟨none, some ⟨1, 1⟩⟩)) := by
  decide

/-- savepointDocID: the fixed identifier of the savepoint document. -/
def savepointDocID : String := "statedb_savepoint"

/-- One operation issued against the store, with its payload. -/
inductive StoreOp where
  | batchRetrieveOp (ids : List Bytes) (includeBodies : Bool)
  | batchUpdateOp (docs : List UpdateDoc)
  | ensureFullCommitOp
  | getDatabaseInfoOp
  | saveSavepointOp (data : CouchSavepointData)
deriving DecidableEq

/-- recordSavepoint (source lines 640-675): the flush command is issued
first, and a flush transport error or a non-ok flush response is fatal
before anything else happens; then the update sequence cursor is read and
the savepoint document holding the height and cursor is written under the
fixed id with an unmanaged revision. Marshalling the savepoint struct
cannot fail. The second component lists the store operations in order. -/
def recordSavepoint (store : Store) (height : Height) :
    Except String Unit × List StoreOp :=
  match store.ensureFullCommit with
  | .error _ => (.error "Failed to perform full commit", [.ensureFullCommitOp])
  | .ok dbResponse =>
    if dbResponse.ok = false then
      (.error "Failed to perform full commit", [.ensureFullCommitOp])
    else
      match store.getDatabaseInfo with
      | .error e => (.error e, [.ensureFullCommitOp, .getDatabaseInfoOp])
      | .ok dbInfo =>
        let savepointDoc : CouchSavepointData :=
          ⟨height.blockNum, height.txNum, dbInfo.updateSeq⟩
        match store.saveSavepointDoc savepointDocID "" savepointDoc with
        | .error e =>
          (.error e,
           [.ensureFullCommitOp, .getDatabaseInfoOp, .saveSavepointOp savepointDoc])
        | .ok _ =>
          (.ok (),
           [.ensureFullCommitOp, .getDatabaseInfoOp, .saveSavepointOp savepointDoc])

/-- natDigits: the ASCII decimal rendering of a Nat (the %v verb). -/
def natDigits (n : Nat) : Bytes := (Nat.toDigits 10 n).map Char.toNat

/-- versionBytes: the encoded version string, blockNum, colon, txNum. -/
def versionBytes (version : Height) : Bytes :=
  natDigits version.blockNum ++ colonByte :: natDigits version.txNum

/-- addCouchDBFieldsToValue (source lines 582-623): the id and version are
always set and the revision only when nonempty; a deleted record sets only
the deletion flag, otherwise the namespace tag is set and the wrapped data
only when the value is not nil. -/
def addCouchDBFieldsToValue (docID : Bytes) (revision : String) (value : Option Bytes)
    (chaincodeID : Bytes) (version : Height) (deleted : Bool) : JSONFields :=
  if deleted then
    { id := docID
      rev := if revision = "" then none else some revision
      version := versionBytes version
      deleted := true
      chaincodeid := none
      data := none }
  else
    { id := docID
      rev := if revision = "" then none else some revision
      version := versionBytes version
      deleted := false
      chaincodeid := some chaincodeID
      data := value }

/-- The per-update document construction of ApplyUpdates (source lines
373-411): a nil value becomes a deletion document; a value that parses as
JSON is inlined; any other value rides as the single named binary
attachment with the JSON data field absent. A nil version pointer would be
dereferenced when formatting the version string, so it aborts (none). -/
def buildUpdateDoc (isJSON : Bytes → Bool) (ns key : Bytes) (revision : String)
    (vv : VersionedValue) : Option UpdateDoc :=
  match vv.version with
  | none => none
  | some ver =>
    let compositeKey := constructCompositeKey ns key
    match vv.value with
    | none =>
      some ⟨addCouchDBFieldsToValue compositeKey revision none ns ver true, none⟩
    | some v =>
      if isJSON v then
        some ⟨addCouchDBFieldsToValue compositeKey revision (some v) ns ver false, none⟩
      else
        some ⟨addCouchDBFieldsToValue compositeKey revision none ns ver false,
          some [⟨binaryWrapper, "application/octet-stream", v⟩]⟩

/-- UpdateBatch: the touched namespaces in order, each with its updates; the
iteration order over the Go maps is fixed by the lists. -/
abbrev UpdateBatch : Type := List (Bytes × List (Bytes × VersionedValue))

/-- The inner missing-key scan of ApplyUpdates for one namespace
(source lines 345-357). -/
def missingKeysForNs (cache : CommittedVersions) (ns : Bytes) :
    List (Bytes × VersionedValue) → List CompositeKey
  | [] => []
  | (key, _) :: rest =>
    match mlookup cache.revisionNumbers ⟨ns, key⟩ with
    | some _ => missingKeysForNs cache ns rest
    | none => ⟨ns, key⟩ :: missingKeysForNs cache ns rest

/-- The missing-key scan of ApplyUpdates (source lines 343-358): every
update whose composite key has no revision entry in the cache, in order. -/
def applyMissingKeys (cache : CommittedVersions) : UpdateBatch → List CompositeKey
  | [] => []
  | (ns, updates) :: rest =>
    missingKeysForNs cache ns updates ++ applyMissingKeys cache rest

/-- The load step of ApplyUpdates (source lines 360-367): missing revisions
are bulk-loaded, bodies excluded, only when some key is missing. -/
def applyLoadedCache (store : Store) (cache : CommittedVersions) (batch : UpdateBatch) :
    Option CommittedVersions :=
  let missingKeys := applyMissingKeys cache batch
  if missingKeys.isEmpty then some cache
  else LoadCommittedVersions store cache missingKeys

/-- The document-building loop of ApplyUpdates for one namespace: each
update reads its revision from the cache, the empty token standing for a
document the store does not know yet. -/
def buildDocsForNs (isJSON : Bytes → Bool) (cache : CommittedVersions) (ns : Bytes) :
    List (Bytes × VersionedValue) → Option (List UpdateDoc)
  | [] => some []
  | (key, vv) :: rest =>
    let revision := (mlookup cache.revisionNumbers ⟨ns, key⟩).getD ""
    match buildUpdateDoc isJSON ns key revision vv with
    | none => none
    | some doc =>
      match buildDocsForNs isJSON cache ns rest with
      | none => none
      | some docs => some (doc :: docs)

/-- The document-building loop of ApplyUpdates (source lines 369-414). -/
def applyBuildDocs (isJSON : Bytes → Bool) (cache : CommittedVersions) :
    UpdateBatch → Option (List UpdateDoc)
  | [] => some []
  | (ns, updates) :: rest =>
    match buildDocsForNs isJSON cache ns updates with
    | none => none
    | some docs =>
      match applyBuildDocs isJSON cache rest with
      | none => none
      | some docs2 => some (docs ++ docs2)

/-- The error message composed for the first non-ok response document
(source lines 426-427). -/
def batchUpdateErrorString (respDoc : UpdateResponse) : String :=
  "Error occurred while saving document ID = " ++ toString respDoc.id ++
    "  Error: " ++ respDoc.error ++ "  Reason: " ++ respDoc.reason ++ "\n"

/-- The body of ApplyUpdates between the deferred clear and the return
(source lines 334-447): load missing revisions, build one document per
update, bulk-write them when any exist, fail on the first non-ok response
document, and otherwise record the savepoint. Returns the result and the
store operations issued in order. -/
def applyUpdatesCore (store : Store) (isJSON : Bytes → Bool) (cache : CommittedVersions)
    (batch : UpdateBatch) (height : Height) : Outcome Unit × List StoreOp :=
  let missingKeys := applyMissingKeys cache batch
  let loadTrace : List StoreOp :=
    if missingKeys.isEmpty then []
    else [.batchRetrieveOp (missingKeys.map fun k => constructCompositeKey k.ns k.key) false]
  match applyLoadedCache store cache batch with
  | none => (.crash, loadTrace)
  | some loadedCache =>
    match applyBuildDocs isJSON loadedCache batch with
    | none => (.crash, loadTrace)
    | some batchUpdateDocs =>
      let writeStep : Outcome Unit × List StoreOp :=
        if batchUpdateDocs.isEmpty then (.ok (), [])
        else
          match store.batchUpdateDocuments batchUpdateDocs with
          | .error e => (.err e, [.batchUpdateOp batchUpdateDocs])
          | .ok resps =>
            match resps.find? (fun respDoc => respDoc.ok = false) with
            | some respDoc =>
              (.err (batchUpdateErrorString respDoc), [.batchUpdateOp batchUpdateDocs])
            | none => (.ok (), [.batchUpdateOp batchUpdateDocs])
      match writeStep with
      | (.err e, writeTrace) => (.err e, loadTrace ++ writeTrace)
      | (.crash, writeTrace) => (.crash, loadTrace ++ writeTrace)
      | (.ok _, writeTrace) =>
        let savepointStep := recordSavepoint store height
        (match savepointStep.1 with
         | .ok _ => .ok ()
         | .error e => .err e,
         loadTrace ++ writeTrace ++ savepointStep.2)

/-- The observable outcome of one ApplyUpdates call: the returned result,
the store operations issued in order, and the cache after the return. -/
structure ApplyOut where
  result : Outcome Unit
  trace : List StoreOp
  finalCache : CommittedVersions
deriving DecidableEq

/-- ApplyUpdates (source lines 329-448). The clear of the cache is deferred
at entry (line 332), so the cache after the call is the cleared cache on
every exit, success or failure. -/
def ApplyUpdates (store : Store) (isJSON : Bytes → Bool) (cache : CommittedVersions)
    (batch : UpdateBatch) (height : Height) : ApplyOut :=
  ⟨(applyUpdatesCore store isJSON cache batch height).1,
   (applyUpdatesCore store isJSON cache batch height).2,
   ClearCachedVersions⟩

/-- The read loop of GetStateMultipleKeys (source lines 272-279): each key
is resolved through GetState against the loaded cache; the first error
aborts the loop. -/
def getStatesLoop (store : Store) (cache : CommittedVersions) (ns : Bytes) :
    List Bytes → Outcome (List (Option VersionedValue))
  | [] => .ok []
  | key :: rest =>
    match GetState store cache ns key with
    | .ok val =>
      match getStatesLoop store cache ns rest with
      | .ok vals => .ok (val :: vals)
      | .err e => .err e
      | .crash => .crash
    | .err e => .err e
    | .crash => .crash

/-- GetStateMultipleKeys (source lines 263-282): bulk-loads versions and
values for all keys, resolves each key in input order, and clears the
cache on return; the deferred clear is registered only after the load call,
so an abort inside the load leaves no cleared cache (second component
none), while every actual return leaves the cleared cache. -/
def GetStateMultipleKeys (store : Store) (cache : CommittedVersions) (ns : Bytes)
    (keys : List Bytes) :
    Outcome (List (Option VersionedValue)) × Option CommittedVersions :=
  let compositeKeys := keys.map (fun key => (⟨ns, key⟩ : CompositeKey))
  match LoadCommittedValues store cache compositeKeys with
  | none => (.crash, none)
  | some loadedCache =>
    (getStatesLoop store loadedCache ns keys, some ClearCachedVersions)

/-- C1: recordSavepoint issues the flush command first; every execution in
which the flush returns an error or a non-ok response returns an error and
never issues the savepoint write; and the savepoint document is written
only when the flush has reported success. -/
theorem recordSavepoint_flush_fence (store : Store) (height : Height) :
    (recordSavepoint store height).2.head? = some .ensureFullCommitOp ∧
    (∀ e, store.ensureFullCommit = .error e →
      (recordSavepoint store height).1 = .error "Failed to perform full commit" ∧
      ∀ sp, StoreOp.saveSavepointOp sp ∉ (recordSavepoint store height).2) ∧
    (store.ensureFullCommit = .ok ⟨false⟩ →
      (recordSavepoint store height).1 = .error "Failed to perform full commit" ∧
      ∀ sp, StoreOp.saveSavepointOp sp ∉ (recordSavepoint store height).2) ∧
    (∀ sp, StoreOp.saveSavepointOp sp ∈ (recordSavepoint store height).2 →
      store.ensureFullCommit = .ok ⟨true⟩) := by
  unfold recordSavepoint
  cases hfc : store.ensureFullCommit with
  | error e => simp
  | ok resp =>
    cases resp with
    | mk okv =>
      cases okv with
      | false => simp
      | true =>
        cases hdi : store.getDatabaseInfo with
        | error e => simp
        | ok info =>
          cases hsv : store.saveSavepointDoc savepointDocID ""
              ⟨height.blockNum, height.txNum, info.updateSeq⟩ with
          | error e => simp [hsv]
          | ok r => simp [hsv]

/-- A store whose flush reports a non-ok response. -/
def flushFailStore : Store where
  readDoc := fun _ => .error "unused"
  batchRetrieve := fun _ _ => []
  batchUpdateDocuments := fun _ => .error "unused"
  ensureFullCommit := .ok ⟨false⟩
  getDatabaseInfo := .error "unused"
  saveSavepointDoc := fun _ _ _ => .error "unused"

/-- C1 witness: on a store whose flush reports non-ok, recordSavepoint at
height (10, 2) fails and never issues the savepoint write. -/
theorem recordSavepoint_flush_fence_witness :
    (recordSavepoint flushFailStore ⟨10, 2⟩).1 = .error "Failed to perform full commit" ∧
    ∀ sp, StoreOp.saveSavepointOp sp ∉ (recordSavepoint flushFailStore ⟨10, 2⟩).2 :=
  (recordSavepoint_flush_fence flushFailStore ⟨10, 2⟩).2.2.1 rfl

/-- C8: the document built for an update with a present value carries
exactly one payload form, never both and never neither: the inline JSON
data field exactly when the value parses as JSON, and the single named
binary attachment otherwise; the document built for a tombstone carries
the deletion flag and neither payload form nor the namespace tag. -/
theorem buildUpdateDoc_payload_exclusive (isJSON : Bytes → Bool) (ns key : Bytes)
    (revision : String) (v : Bytes) (ver : Height) :
    (∀ doc, buildUpdateDoc isJSON ns key revision ⟨some v, some ver⟩ = some doc →
      doc.jsonValue.deleted = false ∧
      ((isJSON v = true ∧ doc.jsonValue.data = some v ∧ doc.attachments = none) ∨
       (isJSON v = false ∧ doc.jsonValue.data = none ∧
         doc.attachments = some [⟨binaryWrapper, "application/octet-stream", v⟩]))) ∧
    (∀ doc, buildUpdateDoc isJSON ns key revision ⟨none, some ver⟩ = some doc →
      doc.jsonValue.deleted = true ∧ doc.jsonValue.data = none ∧
      doc.attachments = none ∧ doc.jsonValue.chaincodeid = none) := by
  constructor
  · intro doc hdoc
    by_cases hj : isJSON v = true
    · simp only [buildUpdateDoc, hj, if_true] at hdoc
      cases hdoc
      simp [addCouchDBFieldsToValue, hj]
    · rw [Bool.not_eq_true] at hj
      simp only [buildUpdateDoc, hj, Bool.false_eq_true, if_false] at hdoc
      cases hdoc
      simp [addCouchDBFieldsToValue, hj]
  · intro doc hdoc
    simp only [buildUpdateDoc] at hdoc
    cases hdoc
    simp [addCouchDBFieldsToValue]

/-- C8 witness: under a recognizer that accepts everything, the built
document for value [49] inlines the data and carries no attachment, and
the built document for a tombstone carries only the deletion flag. -/
theorem buildUpdateDoc_payload_exclusive_witness :
    (∃ doc, buildUpdateDoc (fun _ => true) [97] [120] "" ⟨some [49], some ⟨1, 1⟩⟩ = some doc ∧
      doc.jsonValue.deleted = false ∧ doc.jsonValue.data = some [49] ∧
      doc.attachments = none) ∧
    (∃ doc, buildUpdateDoc (fun _ => true) [97] [120] "" ⟨none, some ⟨1, 1⟩⟩ = some doc ∧
      doc.jsonValue.deleted = true ∧ doc.jsonValue.data = none ∧
      doc.attachments = none ∧ doc.jsonValue.chaincodeid = none) := by
  constructor
  · cases hdoc : buildUpdateDoc (fun _ => true) [97] [120] "" ⟨some [49], some ⟨1, 1⟩⟩ with
    | none => exact absurd hdoc (by decide)
    | some doc =>
      rcases (buildUpdateDoc_payload_exclusive (fun _ => true) [97] [120] "" [49] ⟨1, 1⟩).1
          doc hdoc with ⟨h1, h2 | h2⟩
      · exact ⟨doc, rfl, h1, h2.2.1, h2.2.2⟩
      · exact absurd h2.1 (by decide)
  · cases hdoc : buildUpdateDoc (fun _ => true) [97] [120] "" ⟨none, some ⟨1, 1⟩⟩ with
    | none => exact absurd hdoc (by decide)
    | some doc =>
      rcases (buildUpdateDoc_payload_exclusive (fun _ => true) [97] [120] "" [49] ⟨1, 1⟩).2
          doc hdoc with ⟨h1, h2, h3, h4⟩
      exact ⟨doc, rfl, h1, h2, h3, h4⟩

/-- C5: when the bulk-write response contains a non-ok document, ApplyUpdates
fails with the composed error naming the first offending document id, error
code, and reason, never issues the savepoint write, and the cache after the
call is the cleared cache, as it is after every ApplyUpdates call. -/
theorem ApplyUpdates_partial_failure (store : Store) (isJSON : Bytes → Bool)
    (cache : CommittedVersions) (batch : UpdateBatch) (height : Height)
    (loadedCache : CommittedVersions) (docs : List UpdateDoc)
    (resps : List UpdateResponse) (badDoc : UpdateResponse)
    (hload : applyLoadedCache store cache batch = some loadedCache)
    (hdocs : applyBuildDocs isJSON loadedCache batch = some docs)
    (hne : docs.isEmpty = false)
    (hresp : store.batchUpdateDocuments docs = .ok resps)
    (hbad : resps.find? (fun respDoc => respDoc.ok = false) = some badDoc) :
    (ApplyUpdates store isJSON cache batch height).result =
      .err (batchUpdateErrorString badDoc) ∧
    (∀ sp, StoreOp.saveSavepointOp sp ∉ (ApplyUpdates store isJSON cache batch height).trace) ∧
    (∀ (cache2 : CommittedVersions) (batch2 : UpdateBatch) (height2 : Height),
      (ApplyUpdates store isJSON cache2 batch2 height2).finalCache = ClearCachedVersions) := by
  refine ⟨?_, ?_, fun cache2 batch2 height2 => rfl⟩
  · show (applyUpdatesCore store isJSON cache batch height).1 = _
    simp only [applyUpdatesCore, hload, hdocs, hne, Bool.false_eq_true, if_false, hresp, hbad]
  · intro sp
    show StoreOp.saveSavepointOp sp ∉ (applyUpdatesCore store isJSON cache batch height).2
    simp only [applyUpdatesCore, hload, hdocs, hne, Bool.false_eq_true, if_false, hresp, hbad]
    by_cases hm : (applyMissingKeys cache batch).isEmpty
    · simp [hm]
    · simp [hm]

/-- A store whose bulk write reports one conflicting document. -/
def badWriteStore : Store where
  readDoc := fun _ => .error "unused"
  batchRetrieve := fun _ _ => []
  batchUpdateDocuments := fun _ =>
    .ok [⟨[97, 0, 120], false, "conflict", "Document update conflict"⟩]
  ensureFullCommit := .ok ⟨true⟩
  getDatabaseInfo := .ok ⟨"7-seq"⟩
  saveSavepointDoc := fun _ _ _ => .ok "1-xyz"

/-- A one-update batch: namespace a, key x, JSON value [49] at height (2, 0). -/
def badBatch : UpdateBatch := [([97], [([120], ⟨some [49], some ⟨2, 0⟩⟩)])]

/-- C5 witness: applying badBatch against badWriteStore fails with the
composed message for the conflicting document and never writes a savepoint. -/
theorem ApplyUpdates_partial_failure_witness :
    (ApplyUpdates badWriteStore (fun _ => true) newCommittedVersions badBatch ⟨2, 0⟩).result =
      .err (batchUpdateErrorString ⟨[97, 0, 120], false, "conflict", "Document update conflict"⟩) ∧
    ∀ sp, StoreOp.saveSavepointOp sp ∉
      (ApplyUpdates badWriteStore (fun _ => true) newCommittedVersions badBatch ⟨2, 0⟩).trace := by
  have hld : applyLoadedCache badWriteStore newCommittedVersions badBatch =
      some (initLoadEntries newCommittedVersions [⟨[97], [120]⟩]) := by decide
  have hbd : applyBuildDocs (fun _ => true) (initLoadEntries newCommittedVersions [⟨[97], [120]⟩])
      badBatch =
      some [⟨addCouchDBFieldsToValue (constructCompositeKey [97] [120]) "" (some [49]) [97]
        ⟨2, 0⟩ false, none⟩] := by decide
  have happ := ApplyUpdates_partial_failure badWriteStore (fun _ => true) newCommittedVersions
      badBatch ⟨2, 0⟩
      (initLoadEntries newCommittedVersions [⟨[97], [120]⟩])
      [⟨addCouchDBFieldsToValue (constructCompositeKey [97] [120]) "" (some [49]) [97]
        ⟨2, 0⟩ false, none⟩]
      [⟨[97, 0, 120], false, "conflict", "Document update conflict"⟩]
      ⟨[97, 0, 120], false, "conflict", "Document update conflict"⟩
      hld hbd (by decide) rfl (by decide)
  exact ⟨happ.1, happ.2.1⟩

/-- A batch whose namespaces all carry empty update sets produces no
missing keys. -/
theorem applyMissingKeys_nil_updates (cache : CommittedVersions) (batch : UpdateBatch)
    (h : ∀ nsUpdates ∈ batch, nsUpdates.2 = []) :
    applyMissingKeys cache batch = [] := by
  induction batch with
  | nil => rfl
  | cons nsUpdates rest ih =>
    cases nsUpdates with
    | mk ns updates =>
      have h1 : updates = [] := h (ns, updates) (List.mem_cons_self _ _)
      subst h1
      show missingKeysForNs cache ns [] ++ applyMissingKeys cache rest = []
      rw [missingKeysForNs, ih fun x hx => h x (List.mem_cons_of_mem _ hx)]
      rfl

/-- A batch whose namespaces all carry empty update sets builds no documents. -/
theorem applyBuildDocs_nil_updates (isJSON : Bytes → Bool) (cache : CommittedVersions)
    (batch : UpdateBatch) (h : ∀ nsUpdates ∈ batch, nsUpdates.2 = []) :
    applyBuildDocs isJSON cache batch = some [] := by
  induction batch with
  | nil => rfl
  | cons nsUpdates rest ih =>
    cases nsUpdates with
    | mk ns updates =>
      have h1 : updates = [] := h (ns, updates) (List.mem_cons_self _ _)
      subst h1
      show (match buildDocsForNs isJSON cache ns [] with
        | none => none
        | some docs =>
          match applyBuildDocs isJSON cache rest with
          | none => none
          | some docs2 => some (docs ++ docs2)) = some []
      rw [buildDocsForNs, ih fun x hx => h x (List.mem_cons_of_mem _ hx)]
      rfl

/-- C10: ApplyUpdates on a batch containing no updates issues no bulk write
and no bulk read, yet still records a savepoint for the given height, and
the cache after the call is the cleared cache: the trace is exactly the
flush, the cursor read, and the savepoint write holding the height. -/
theorem ApplyUpdates_empty_batch (store : Store) (isJSON : Bytes → Bool)
    (cache : CommittedVersions) (batch : UpdateBatch) (height : Height)
    (info : DBInfo) (newRev : String)
    (hempty : ∀ nsUpdates ∈ batch, nsUpdates.2 = [])
    (hflush : store.ensureFullCommit = .ok ⟨true⟩)
    (hinfo : store.getDatabaseInfo = .ok info)
    (hsave : store.saveSavepointDoc savepointDocID ""
        ⟨height.blockNum, height.txNum, info.updateSeq⟩ = .ok newRev) :
    (ApplyUpdates store isJSON cache batch height).result = .ok () ∧
    (ApplyUpdates store isJSON cache batch height).trace =
      [.ensureFullCommitOp, .getDatabaseInfoOp,
       .saveSavepointOp ⟨height.blockNum, height.txNum, info.updateSeq⟩] ∧
    (ApplyUpdates store isJSON cache batch height).finalCache = ClearCachedVersions := by
  have hmk := applyMissingKeys_nil_updates cache batch hempty
  have hload : applyLoadedCache store cache batch = some cache := by
    unfold applyLoadedCache
    rw [hmk]
    rfl
  have hbd := applyBuildDocs_nil_updates isJSON cache batch hempty
  have hsp : recordSavepoint store height =
      (.ok (), [.ensureFullCommitOp, .getDatabaseInfoOp,
        .saveSavepointOp ⟨height.blockNum, height.txNum, info.updateSeq⟩]) := by
    simp [recordSavepoint, hflush, hinfo, hsave]
  refine ⟨?_, ?_, rfl⟩
  · show (applyUpdatesCore store isJSON cache batch height).1 = _
    simp [applyUpdatesCore, hmk, hload, hbd, hsp]
  · show (applyUpdatesCore store isJSON cache batch height).2 = _
    simp [applyUpdatesCore, hmk, hload, hbd, hsp]

/-- A store that accepts the flush, the cursor read, and the savepoint write. -/
def savepointOnlyStore : Store where
  readDoc := fun _ => .error "unused"
  batchRetrieve := fun _ _ => []
  batchUpdateDocuments := fun _ => .error "unused"
  ensureFullCommit := .ok ⟨true⟩
  getDatabaseInfo := .ok ⟨"42-seq"⟩
  saveSavepointDoc := fun _ _ _ => .ok "1-xyz"

/-- C10 witness: the empty batch at height (7, 0) writes no documents yet
records the savepoint (7, 0, cursor). -/
theorem ApplyUpdates_empty_batch_witness :
    (ApplyUpdates savepointOnlyStore (fun _ => true) newCommittedVersions [] ⟨7, 0⟩).result =
      .ok () ∧
    (ApplyUpdates savepointOnlyStore (fun _ => true) newCommittedVersions [] ⟨7, 0⟩).trace =
      [.ensureFullCommitOp, .getDatabaseInfoOp, .saveSavepointOp ⟨7, 0, "42-seq"⟩] ∧
    (ApplyUpdates savepointOnlyStore (fun _ => true) newCommittedVersions [] ⟨7, 0⟩).finalCache =
      ClearCachedVersions :=
  ApplyUpdates_empty_batch savepointOnlyStore (fun _ => true) newCommittedVersions [] ⟨7, 0⟩
    ⟨"42-seq"⟩ "1-xyz" (by simp) rfl rfl rfl

/-- The loop results align with the keys: same length, and position i holds
the GetState result of key i against the same cache. -/
theorem getStatesLoop_aligned (store : Store) (cache : CommittedVersions) (ns : Bytes) :
    ∀ (keys : List Bytes) (vals : List (Option VersionedValue)),
      getStatesLoop store cache ns keys = .ok vals →
      vals.length = keys.length ∧
      ∀ i (hi : i < keys.length) (hv : i < vals.length),
        GetState store cache ns (keys.get ⟨i, hi⟩) = .ok (vals.get ⟨i, hv⟩) := by
  intro keys
  induction keys with
  | nil =>
    intro vals h
    rw [getStatesLoop] at h
    simp at h
    subst h
    exact ⟨rfl, fun i hi _ => absurd hi (Nat.not_lt_zero i)⟩
  | cons k rest ih =>
    intro vals h
    rw [getStatesLoop] at h
    cases hg : GetState store cache ns k with
    | ok v =>
      rw [hg] at h
      cases hr : getStatesLoop store cache ns rest with
      | ok vs =>
        rw [hr] at h
        simp at h
        subst h
        rcases ih vs hr with ⟨hlen, halign⟩
        refine ⟨by simp [hlen], ?_⟩
        intro i hi hv
        cases i with
        | zero => exact hg
        | succ n =>
          exact halign n (Nat.lt_of_succ_lt_succ hi) (Nat.lt_of_succ_lt_succ hv)
      | err e => rw [hr] at h; simp at h
      | crash => rw [hr] at h; simp at h
    | err e => rw [hg] at h; simp at h
    | crash => rw [hg] at h; simp at h

/-- Seeding the load entries leaves the value map untouched. -/
theorem initLoadEntries_committedValues (cache : CommittedVersions) (keys : List CompositeKey) :
    (initLoadEntries cache keys).committedValues = cache.committedValues := by
  induction keys generalizing cache with
  | nil => rfl
  | cons k rest ih =>
    rw [show initLoadEntries cache (k :: rest) =
        initLoadEntries { cache with
          committedVersions := (k, none) :: cache.committedVersions,
          revisionNumbers := (k, "") :: cache.revisionNumbers } rest from rfl, ih]

/-- The value-loading response loop adds a value entry only for a response
document with a nonempty version whose id splits to the key: any other key
with no prior value entry still has none afterwards. -/
theorem loadValuesDocs_committedValues_none (compositeKey : CompositeKey) :
    ∀ (docs : List RetrievedDoc) (cache : CommittedVersions),
      mlookup cache.committedValues compositeKey = none →
      (∀ doc ∈ docs, doc.version = [] ∨
        splitCompositeKey doc.id ≠ some (compositeKey.ns, compositeKey.key)) →
      ∀ cache2, loadValuesDocs cache docs = some cache2 →
        mlookup cache2.committedValues compositeKey = none := by
  intro docs
  induction docs with
  | nil =>
    intro cache hc _ cache2 h2
    rw [loadValuesDocs] at h2
    simp at h2
    subst h2
    exact hc
  | cons doc rest ih =>
    intro cache hc hdocs cache2 h2
    rw [loadValuesDocs] at h2
    by_cases hv : doc.version = []
    · rw [if_pos hv] at h2
      exact ih cache hc (fun d hd => hdocs d (List.mem_cons_of_mem _ hd)) cache2 h2
    · rw [if_neg hv] at h2
      cases hs : splitCompositeKey doc.id with
      | none => rw [hs] at h2; simp at h2
      | some p =>
        cases p with
        | mk ns2 k2 =>
          rw [hs] at h2
          cases hcv : createVersionFromString doc.version with
          | none => rw [hcv] at h2; simp at h2
          | some ver =>
            rw [hcv] at h2
            have hne : ¬((⟨ns2, k2⟩ : CompositeKey) = compositeKey) := by
              intro he
              rcases hdocs doc (List.mem_cons_self _ _) with hd | hd
              · exact hv hd
              · rw [← he] at hd
                exact hd hs
            refine ih _ ?_ (fun d hd => hdocs d (List.mem_cons_of_mem _ hd)) cache2 h2
            show mlookup ((⟨ns2, k2⟩, (none : Option Bytes)) :: cache.committedValues)
              compositeKey = none
            rw [mlookup, if_neg hne]
            exact hc

/-- A key with no cached value entry whose point read reports absence
resolves to an absent state. -/
theorem GetState_absent (store : Store) (cache : CommittedVersions) (ns key : Bytes)
    (hcv : mlookup cache.committedValues ⟨ns, key⟩ = none)
    (hrd : store.readDoc (constructCompositeKey ns key) = .ok none) :
    GetState store cache ns key = .ok none := by
  simp only [GetState, getStateFromDB, hcv, hrd]

/-- C4: GetStateMultipleKeys returns, for n input keys, exactly n results in
input order, position i holding the GetState result of key i against the
bulk-loaded cache; a requested key that is not pre-cached, that no bulk
response document reports with a nonempty version, and whose point read
reports absence, yields an absent entry; and every actual return leaves the
cleared cache. -/
theorem GetStateMultipleKeys_aligned (store : Store) (cache : CommittedVersions)
    (ns : Bytes) (keys : List Bytes) :
    ((GetStateMultipleKeys store cache ns keys).1 ≠ .crash →
      (GetStateMultipleKeys store cache ns keys).2 = some ClearCachedVersions) ∧
    (∀ vals, (GetStateMultipleKeys store cache ns keys).1 = .ok vals →
      vals.length = keys.length ∧
      ∃ loadedCache,
        LoadCommittedValues store cache
          (keys.map fun key => (⟨ns, key⟩ : CompositeKey)) = some loadedCache ∧
        (∀ i (hi : i < keys.length) (hv : i < vals.length),
          GetState store loadedCache ns (keys.get ⟨i, hi⟩) = .ok (vals.get ⟨i, hv⟩)) ∧
        (∀ i (hi : i < keys.length) (hv : i < vals.length),
          mlookup cache.committedValues ⟨ns, keys.get ⟨i, hi⟩⟩ = none →
          (∀ ids includeBodies doc, doc ∈ store.batchRetrieve ids includeBodies →
            doc.version = [] ∨
            splitCompositeKey doc.id ≠ some (ns, keys.get ⟨i, hi⟩)) →
          store.readDoc (constructCompositeKey ns (keys.get ⟨i, hi⟩)) = .ok none →
          vals.get ⟨i, hv⟩ = none)) := by
  cases hld : LoadCommittedValues store cache
      (keys.map fun key => (⟨ns, key⟩ : CompositeKey)) with
  | none =>
    have h1 : (GetStateMultipleKeys store cache ns keys).1 = .crash := by
      simp only [GetStateMultipleKeys, hld]
    constructor
    · intro hne
      exact absurd h1 hne
    · intro vals hok
      rw [h1] at hok
      simp at hok
  | some loadedCache =>
    constructor
    · intro _
      simp only [GetStateMultipleKeys, hld]
    · intro vals hok
      have hok2 : getStatesLoop store loadedCache ns keys = .ok vals := by
        have h1 : (GetStateMultipleKeys store cache ns keys).1 =
            getStatesLoop store loadedCache ns keys := by
          simp only [GetStateMultipleKeys, hld]
        rw [← h1]
        exact hok
      rcases getStatesLoop_aligned store loadedCache ns keys vals hok2 with ⟨hlen, halign⟩
      refine ⟨hlen, loadedCache, rfl, halign, ?_⟩
      intro i hi hv hcache hdocs hread
      have hld2 : loadValuesDocs
          (initLoadEntries cache (keys.map fun key => (⟨ns, key⟩ : CompositeKey)))
          (store.batchRetrieve
            ((keys.map fun key => (⟨ns, key⟩ : CompositeKey)).map
              fun k => constructCompositeKey k.ns k.key) true) = some loadedCache := hld
      have hl2 : mlookup loadedCache.committedValues ⟨ns, keys.get ⟨i, hi⟩⟩ = none := by
        refine loadValuesDocs_committedValues_none ⟨ns, keys.get ⟨i, hi⟩⟩ _ _ ?_ ?_
          loadedCache hld2
        · rw [initLoadEntries_committedValues]
          exact hcache
        · intro d hd
          exact hdocs _ _ d hd
      have hgs := GetState_absent store loadedCache ns (keys.get ⟨i, hi⟩) hl2 hread
      have htr := hgs.symm.trans (halign i hi hv)
      injection htr with h5
      exact h5.symm

/-- A store holding one document, id (a, x) with version 3:4, reported by
every bulk read; every point read reports absence. -/
def multiKeyStore : Store where
  readDoc := fun _ => .ok none
  batchRetrieve := fun _ _ => [⟨[97, 0, 120], "1-abc", [51, 58, 52], [49]⟩]
  batchUpdateDocuments := fun _ => .error "unused"
  ensureFullCommit := .error "unused"
  getDatabaseInfo := .error "unused"
  saveSavepointDoc := fun _ _ _ => .ok "unused"

/-- C4 witness: for keys x and y of which the store holds only x, the call
leaves the cleared cache and returns two results in input order, an entry
for x and an absent entry for y. -/
theorem GetStateMultipleKeys_aligned_witness :
    (GetStateMultipleKeys multiKeyStore newCommittedVersions [97] [[120], [121]]).2 =
      some ClearCachedVersions ∧
    ([some ⟨none, some ⟨3, 4⟩⟩, none] : List (Option VersionedValue)).length =
      ([[120], [121]] : List Bytes).length := by
  constructor
  · exact (GetStateMultipleKeys_aligned multiKeyStore newCommittedVersions [97]
      [[120], [121]]).1 (by decide)
  · exact ((GetStateMultipleKeys_aligned multiKeyStore newCommittedVersions [97]
      [[120], [121]]).2 [some ⟨none, some ⟨3, 4⟩⟩, none] (by decide)).1
